import Mathlib

/-!
# Verification of the Victus MC Store backend (`src/main.py`)

A shallow embedding of the storefront backend: the order-creation endpoint
`create_order` (`POST /api/orders`) and the product-catalog endpoint
`get_products` (`GET /api/products`), together with theorems settling the
frozen claims about them.

Modelling conventions:

* Python runtime values occurring in the request dictionaries are modelled by
  `PyValue` (`None`, `bool`, `int`, `float`, `str`, plus the store's object
  ids).  Python floats are modelled by their exact rational value; the model
  covers the finite doubles (no infinities or NaNs).
* Python dicts are modelled as association lists (`Doc`) with the keys in
  insertion order, matching Python's dict-ordering guarantee.
* IEEE-754 binary64 arithmetic is modelled exactly: `fp64 q` rounds the
  rational `q` to the nearest representable double (ties to even, subnormals
  at scale `2⁻¹⁰⁷⁴`), returned as its exact rational value, and each Python
  float operation rounds its exact rational result through `fp64`.
* The document-store collaborator (`database.py`, not part of the sources)
  is modelled from the spec as explicit state passing over `Store`.
-/

namespace VictusStore

/-- A Python runtime value as it can occur in a JSON-derived request dict or
in a stored document: `None`, booleans, integers, (finite) floats modelled by
their exact rational value, strings, and the store's opaque object ids. -/
inductive PyValue where
  | none : PyValue
  | bool (b : Bool) : PyValue
  | int (n : ℤ) : PyValue
  | float (q : ℚ) : PyValue
  | str (s : String) : PyValue
  | oid (n : ℕ) : PyValue
deriving DecidableEq, Repr

/-- A Python dict with string keys, as an association list in key-insertion
order (Python dicts preserve insertion order and have no duplicate keys). -/
abbrev Doc := List (String × PyValue)

/-- `d.get(k, dflt)`: the value bound to `k`, or `dflt` when the key is absent. -/
def dget (d : Doc) (k : String) (dflt : PyValue) : PyValue :=
  match d.lookup k with
  | some v => v
  | Option.none => dflt

/-- `d.get(k)`: the value bound to `k`, or `None` when the key is absent. -/
def dgetN (d : Doc) (k : String) : PyValue :=
  dget d k .none

/-- `d.pop(k)` restricted to its removal effect: drop the binding of `k`. -/
def dpop (d : Doc) (k : String) : Doc :=
  d.filter (fun kv => kv.1 ≠ k)

/-- `d[k] = v`: overwrite the value at `k` in place when the key exists,
otherwise append the new binding at the end (Python dict insertion order). -/
def dset (d : Doc) (k : String) (v : PyValue) : Doc :=
  if (d.lookup k).isSome then
    d.map (fun kv => if kv.1 = k then (k, v) else kv)
  else
    d ++ [(k, v)]

/-- Python truthiness of a value: `None`, `False`, `0`, `0.0` and `""` are
falsy, everything else is truthy. -/
def PyValue.truthy : PyValue → Bool
  | .none => false
  | .bool b => b
  | .int n => n ≠ 0
  | .float q => q ≠ 0
  | .str s => s ≠ ""
  | .oid _ => true

/-- Python `a or b`: `a` when `a` is truthy, otherwise `b`. -/
def pyOr (a b : PyValue) : PyValue :=
  if a.truthy then a else b

/-! ## Binary64 arithmetic, exactly

Python's float arithmetic is IEEE-754 binary64 with round-to-nearest, ties to
even.  We model a double by its exact rational value and implement the
rounding function directly on `ℚ`. -/

/-- Round a rational to the nearest integer, ties to even. -/
def roundHalfEvenInt (q : ℚ) : ℤ :=
  let f := ⌊q⌋
  let r := q - (f : ℚ)
  if r < 1/2 then f
  else if 1/2 < r then f + 1
  else if f % 2 = 0 then f else f + 1

/-- Base-2 logarithm on `ℕ` by structural recursion on a fuel argument
(kernel-reducible, unlike the library's well-founded definitions). -/
def log2fuel : ℕ → ℕ → ℕ
  | 0, _ => 0
  | f+1, n => if n ≤ 1 then 0 else log2fuel f (n / 2) + 1

/-- `⌊log₂ n⌋` for `n ≥ 1` (and `0` for `n = 0`). -/
def log2n (n : ℕ) : ℕ := log2fuel n n

/-- `2 ^ e` in `ℚ` for an integer exponent, via `ℕ` powers. -/
def pow2 (e : ℤ) : ℚ :=
  if 0 ≤ e then ((2 ^ e.toNat : ℕ) : ℚ) else ((2 ^ (-e).toNat : ℕ) : ℚ)⁻¹

/-- Round a rational to the nearest IEEE-754 binary64 value (53-bit
significand, ties to even, subnormal scale floored at `2⁻¹⁰⁷⁴`), returned as
its exact rational value.  The model covers the finite range; the claims never
exercise overflow to infinity. -/
def fp64 (q : ℚ) : ℚ :=
  if q = 0 then 0
  else
    let a := |q|
    let e0 : ℤ := (log2n a.num.toNat : ℤ) - (log2n a.den : ℤ)
    let e : ℤ := if a < pow2 e0 then e0 - 1 else e0
    let scale : ℤ := max (e - 52) (-1074)
    let m : ℤ := roundHalfEvenInt (a * pow2 (-scale))
    (if q < 0 then (-m : ℤ) else m) * pow2 scale

/-- Python float addition: exact sum, rounded to the nearest double. -/
def fadd (x y : ℚ) : ℚ := fp64 (x + y)

/-- Python float multiplication: exact product, rounded to the nearest double. -/
def fmul (x y : ℚ) : ℚ := fp64 (x * y)

/-- Python `round(x, 2)` on a float: the exact value of `x` is rounded to two
decimal places (ties to even — unreachable for dyadic inputs), and the result
is converted back to the nearest double.  CPython computes exactly this via
correctly rounded decimal conversion. -/
def pyRound2 (x : ℚ) : ℚ :=
  fp64 ((roundHalfEvenInt (x * 100) : ℚ) / 100)

/-! ## Python `int()`, `float()` and `str()` conversions -/

/-- The value of a nonempty all-digit run, `Option.none` otherwise. -/
def digitsVal : List Char → Option ℕ
  | [] => Option.none
  | cs =>
    cs.foldl
      (fun acc c =>
        acc.bind (fun n => if c.isDigit then some (10 * n + (c.toNat - 48)) else Option.none))
      (some 0)

/-- Value of a possibly-empty all-digit run (used for the two sides of a
decimal point, where one side may be empty). -/
def digitsValOpt (cs : List Char) : Option ℕ :=
  if cs.isEmpty then some 0 else digitsVal cs

/-- Parse an unsigned decimal literal `digits [. digits]` with at least one
digit overall, as an exact rational. -/
def parseUnsignedDec (cs : List Char) : Option ℚ :=
  let ip := cs.takeWhile (fun c => c ≠ '.')
  let rest := cs.dropWhile (fun c => c ≠ '.')
  match rest with
  | [] => (digitsVal ip).map (fun n => (n : ℚ))
  | _ :: fp =>
    if fp.contains '.' ∨ (ip.isEmpty ∧ fp.isEmpty) then Option.none
    else
      (digitsValOpt ip).bind (fun n =>
        (digitsValOpt fp).map (fun m =>
          (n : ℚ) + (m : ℚ) / ((10 ^ fp.length : ℕ) : ℚ)))

/-- Python `float(s)` for a plain decimal literal with optional sign: the
exact decimal value (rounding to binary64 is applied by `pyFloat`).
Exponent forms and the named specials are outside the model. -/
def parseFloatLit (s : String) : Option ℚ :=
  match s.data with
  | '-' :: cs => (parseUnsignedDec cs).map (fun q => -q)
  | '+' :: cs => parseUnsignedDec cs
  | cs => parseUnsignedDec cs

/-- Python `int(s)` for an optionally signed run of digits. -/
def parseIntLit (s : String) : Option ℤ :=
  match s.data with
  | '-' :: cs => (digitsVal cs).map (fun n => -(n : ℤ))
  | '+' :: cs => (digitsVal cs).map (fun n => (n : ℤ))
  | cs => (digitsVal cs).map (fun n => (n : ℤ))

/-- Truncation toward zero, Python's float-to-int conversion. -/
def pytrunc (q : ℚ) : ℤ :=
  if q < 0 then ⌈q⌉ else ⌊q⌋

/-- Python `int(v)`: ints pass through, bools become 0/1, floats truncate
toward zero, strings parse as signed digit runs; `None` and other objects
raise (modelled as `Option.none`). -/
def pyInt : PyValue → Option ℤ
  | .bool b => some (if b then 1 else 0)
  | .int n => some n
  | .float q => some (pytrunc q)
  | .str s => parseIntLit s
  | _ => Option.none

/-- Python `float(v)`: floats pass through, bools and ints convert to the
nearest double, strings parse as decimal literals then round to the nearest
double; `None` and other objects raise (modelled as `Option.none`). -/
def pyFloat : PyValue → Option ℚ
  | .bool b => some (if b then 1 else 0)
  | .int n => some (fp64 (n : ℚ))
  | .float q => some q
  | .str s => (parseFloatLit s).map fp64
  | _ => Option.none

/-- Python `str(v)`.  For floats the model renders the exact rational value
(`repr`'s shortest round-trip form is not reproduced); no claim depends on
the rendering of a non-string value beyond ints, where `str` agrees with the
decimal notation. -/
def pyStr : PyValue → String
  | .none => "None"
  | .bool b => if b then "True" else "False"
  | .int n => toString n
  | .float q => toString q
  | .str s => s
  | .oid n => toString n

/-! ## The document store

`main.py` imports `db`, `create_document` and `get_documents` from
`database.py`, which is not among the sources. -/

/-- A persisted order document, the fields `main.py` passes to the `Order`
schema constructor before `create_document` stores it. -/
structure OrderRec where
  items : List Doc
  subtotal : ℚ
  buyer_email : Option String
  buyer_username : Option String
  note : Option String
deriving DecidableEq, Repr

/-- Modelled from the spec: `database.py` (the `db` handle and the
`create_document` / `get_documents` helpers) is not among the sources; §6
gives the collaborator interface `count(collection, filter) → int`,
`insert(collection, document) → id`, `find(collection, filter, projection) →
[document]`, reading back in insertion order (§4.1).  `Store` is the state of
the two collections `main.py` uses, with a counter supplying the store's
opaque ids.  Timestamps the store may attach are not modelled; no claim
depends on them. -/
structure Store where
  products : List Doc
  orders : List OrderRec
  nextId : ℕ
deriving DecidableEq, Repr

/-- Modelled from the spec: `create_document` on the product collection —
`insert(collection, document) → id`.  The stored document carries the
store-assigned `_id`; insertion appends (reads return insertion order). -/
def insertProduct (st : Store) (d : Doc) : Store :=
  { st with
    products := st.products ++ [("_id", .oid st.nextId) :: d]
    nextId := st.nextId + 1 }

/-- Modelled from the spec: `create_document` on the order collection —
`insert(collection, document) → id`, returning the assigned id. -/
def insertOrder (st : Store) (d : OrderRec) : ℕ × Store :=
  (st.nextId, { st with orders := st.orders ++ [d], nextId := st.nextId + 1 })

/-- The HTTP outcome of an endpoint: a success payload, or an
`HTTPException(status_code, detail)`. -/
inductive ApiResult (α : Type) where
  | ok (val : α) : ApiResult α
  | httpError (status : ℕ) (detail : String) : ApiResult α
deriving DecidableEq, Repr

/-! ## `GET /api/products` (`get_products`, main.py lines 118–140) -/

/-- Seed product 1 of `DEFAULT_PRODUCTS` (main.py lines 73–82). -/
def productVIP : Doc :=
  [("title", .str "VIP Rank"),
   ("description", .str "Purple tag, daily crate, /fly, and more perks."),
   ("price", .float (fp64 (999/100))),
   ("category", .str "ranks"),
   ("in_stock", .bool true),
   ("sku", .str "RANK_VIP"),
   ("image", .str "https://i.imgur.com/7gW5a8W.png"),
   ("badge", .str "Popular")]

/-- Seed product 2 of `DEFAULT_PRODUCTS` (main.py lines 83–92). -/
def productMVP : Doc :=
  [("title", .str "MVP Rank"),
   ("description", .str "All VIP perks plus extra kits and boosters."),
   ("price", .float (fp64 (1999/100))),
   ("category", .str "ranks"),
   ("in_stock", .bool true),
   ("sku", .str "RANK_MVP"),
   ("image", .str "https://i.imgur.com/3wM3q6B.png"),
   ("badge", .str "Best Value")]

/-- Seed product 3 of `DEFAULT_PRODUCTS` (main.py lines 93–102). -/
def productLegend : Doc :=
  [("title", .str "Legend Rank"),
   ("description", .str "Ultimate status, cosmetics, and exclusive features."),
   ("price", .float (fp64 (3999/100))),
   ("category", .str "ranks"),
   ("in_stock", .bool true),
   ("sku", .str "RANK_LEGEND"),
   ("image", .str "https://i.imgur.com/8F9mTnE.png"),
   ("badge", .str "Premium")]

/-- Seed product 4 of `DEFAULT_PRODUCTS` (main.py lines 103–112). -/
def productKeys : Doc :=
  [("title", .str "Keys Bundle"),
   ("description", .str "10x Galaxy Crate Keys."),
   ("price", .float (fp64 (799/100))),
   ("category", .str "keys"),
   ("in_stock", .bool true),
   ("sku", .str "KEYS_GALAXY_10"),
   ("image", .str "https://i.imgur.com/0kCqf3L.png"),
   ("badge", .none)]

/-- The fixed seed set (main.py lines 72–113). -/
def DEFAULT_PRODUCTS : List Doc :=
  [productVIP, productMVP, productLegend, productKeys]

/-- Seed the four default products, in order (main.py lines 126–130; the
per-item `try/except: pass` is modelled from the spec with inserts that
always succeed). -/
def seedProducts (st : Store) : Store :=
  DEFAULT_PRODUCTS.foldl insertProduct st

/-- Stringify the value at `k` in place when the key exists
(main.py lines 136–139, `p[k] = str(p[k])`). -/
def stringifyField (d : Doc) (k : String) : Doc :=
  match d.lookup k with
  | some v => dset d k (.str (pyStr v))
  | Option.none => d

/-- main.py lines 133–139: replace the internal `_id` by a stringified public
`id` field, and stringify the timestamp fields when present. -/
def normalizeProduct (p : Doc) : Doc :=
  let p1 :=
    match p.lookup "_id" with
    | some v => dset (dpop p "_id") "id" (.str (pyStr v))
    | Option.none => p
  stringifyField (stringifyField p1 "created_at") "updated_at"

/-- `get_products` (main.py lines 118–140): 500 when `db is None`; seed the
defaults when the product collection is empty; return every product with the
internal id replaced by a string `id`.  Returns the response together with
the resulting store state. -/
def get_products (db : Option Store) : ApiResult (List Doc) × Option Store :=
  match db with
  | Option.none => (.httpError 500 "Database not configured", Option.none)
  | some st =>
    let st1 := if st.products.length = 0 then seedProducts st else st
    (.ok (st1.products.map normalizeProduct), some st1)

/-! ## `POST /api/orders` (`create_order`, main.py lines 142–182) -/

/-- The request body (main.py lines 65–69): a list of raw item dicts plus
optional buyer metadata. -/
structure CreateOrderRequest where
  items : List Doc
  buyer_email : Option String
  buyer_username : Option String
  note : Option String
deriving DecidableEq, Repr

/-- One iteration of the item loop (main.py lines 152–168): parse quantity
(default 1) with `int()`, price with `float()`, apply the title and
product_id defaults, and reject on `qty <= 0 or price < 0`.  `Option.none`
is `continue` — a conversion error or a failed check. -/
def processItem (item : Doc) : Option (ℤ × ℚ × PyValue × String) :=
  (pyInt (dget item "quantity" (.int 1))).bind (fun qty =>
    (pyFloat (dgetN item "price")).bind (fun price =>
      let title := pyOr (dgetN item "title") (.str "Item")
      let product_id := pyStr (pyOr (dgetN item "product_id") (.str ""))
      if qty ≤ 0 ∨ price < 0 then Option.none
      else some (qty, price, title, product_id)))

/-- The normalized line item appended on acceptance (main.py lines 161–166):
a dict with exactly the four keys `product_id`, `quantity`, `price`, `title`. -/
def mkLineItem (qty : ℤ) (price : ℚ) (title : PyValue) (product_id : String) : Doc :=
  [("product_id", .str product_id),
   ("quantity", .int qty),
   ("price", .float price),
   ("title", title)]

/-- The item loop with its two accumulators (main.py lines 147–168):
the accepted normalized items and the running float subtotal
`subtotal += qty * price` (int-to-float conversion, binary64 multiply and
add). -/
def orderLoopAux : List Doc → List Doc → ℚ → List Doc × ℚ
  | [], acc, sub => (acc, sub)
  | item :: rest, acc, sub =>
    match processItem item with
    | Option.none => orderLoopAux rest acc sub
    | some (qty, price, title, product_id) =>
      orderLoopAux rest (acc ++ [mkLineItem qty price title product_id])
        (fadd sub (fmul (fp64 (qty : ℚ)) price))

/-- The item loop started from `items = []`, `subtotal = 0.0`. -/
def orderLoop (items : List Doc) : List Doc × ℚ :=
  orderLoopAux items [] 0

/-- `create_order` (main.py lines 142–182): 500 when `db is None`; 400
"No items in order" on an empty list; run the item loop; 400 "Invalid items"
when nothing was accepted; otherwise persist the order with
`subtotal = round(subtotal, 2)` and return the assigned id.  Returns the
response together with the resulting store state. -/
def create_order (db : Option Store) (payload : CreateOrderRequest) :
    ApiResult ℕ × Option Store :=
  match db with
  | Option.none => (.httpError 500 "Database not configured", Option.none)
  | some st =>
    if payload.items.isEmpty then (.httpError 400 "No items in order", some st)
    else
      let res := orderLoop payload.items
      if res.1.length = 0 then (.httpError 400 "Invalid items", some st)
      else
        let orderDoc : OrderRec :=
          { items := res.1
            subtotal := pyRound2 res.2
            buyer_email := payload.buyer_email
            buyer_username := payload.buyer_username
            note := payload.note }
        let ins := insertOrder st orderDoc
        (.ok ins.1, some ins.2)

/-! ## Derived notions used by the claims -/

/-- The parsed quantity of a raw item: `int(item.get("quantity", 1))`
(main.py line 154). -/
def itemQty (item : Doc) : Option ℤ :=
  pyInt (dget item "quantity" (.int 1))

/-- The parsed price of a raw item: `float(item.get("price"))`
(main.py line 155). -/
def itemPrice (item : Doc) : Option ℚ :=
  pyFloat (dgetN item "price")

/-- The parsed quantity, defaulted to 0 for expressing sums over items whose
parses are known to succeed. -/
def qtyOf (item : Doc) : ℤ := (itemQty item).getD 0

/-- The parsed price, defaulted to 0 likewise. -/
def priceOf (item : Doc) : ℚ := (itemPrice item).getD 0

/-- The binary64 left-to-right sum of `quantity * price` over a list of raw
items, exactly as the loop accumulates it for accepted items. -/
def fpSubtotal (items : List Doc) : ℚ :=
  items.foldl (fun s it => fadd s (fmul (fp64 ((qtyOf it : ℤ) : ℚ)) (priceOf it))) 0

/-- The normalized line items the loop accepts, in input order: the image of
the raw-item list under per-item validation, rejected items skipped. -/
def acceptedItems (l : List Doc) : List Doc :=
  l.filterMap (fun item =>
    (processItem item).map (fun x => mkLineItem x.1 x.2.1 x.2.2.1 x.2.2.2))

/-- One step of the subtotal accumulator: unchanged on a rejected item,
otherwise `subtotal += qty * price` in binary64. -/
def stepSub (s : ℚ) (item : Doc) : ℚ :=
  match processItem item with
  | Option.none => s
  | some x => fadd s (fmul (fp64 (x.1 : ℚ)) x.2.1)

/-! ## Structural lemmas about the item loop -/

/-- Inversion for per-item validation: an item is accepted with exactly the
parsed quantity, the parsed price, positivity of the former, nonnegativity of
the latter, and the two defaulting rules for title and product_id. -/
theorem processItem_some_iff (item : Doc) (q : ℤ) (p : ℚ) (t : PyValue) (pid : String) :
    processItem item = some (q, p, t, pid) ↔
      itemQty item = some q ∧ itemPrice item = some p ∧ 0 < q ∧ 0 ≤ p ∧
        t = pyOr (dgetN item "title") (.str "Item") ∧
        pid = pyStr (pyOr (dgetN item "product_id") (.str "")) := by
  unfold processItem itemQty itemPrice
  simp only [Option.bind_eq_some]
  constructor
  · rintro ⟨q0, hq, p0, hp, hres⟩
    split_ifs at hres with hcond
    push_neg at hcond
    have hres2 := Option.some.inj hres
    rw [Prod.mk.injEq, Prod.mk.injEq, Prod.mk.injEq] at hres2
    obtain ⟨rfl, rfl, rfl, rfl⟩ := hres2
    exact ⟨hq, hp, hcond.1, hcond.2, rfl, rfl⟩
  · rintro ⟨hq, hp, hqpos, hppos, rfl, rfl⟩
    refine ⟨q, hq, p, hp, ?_⟩
    rw [if_neg]
    push_neg
    exact ⟨hqpos, hppos⟩

/-- A per-item-valid raw item is accepted with its parsed quantity and price. -/
theorem processItem_of_valid (item : Doc) (q : ℤ) (p : ℚ)
    (hq : itemQty item = some q) (hq0 : 0 < q)
    (hp : itemPrice item = some p) (hp0 : 0 ≤ p) :
    processItem item =
      some (q, p, pyOr (dgetN item "title") (.str "Item"),
        pyStr (pyOr (dgetN item "product_id") (.str ""))) :=
  (processItem_some_iff item q p _ _).mpr ⟨hq, hp, hq0, hp0, rfl, rfl⟩

/-- A quantity stored as a literal int parses to itself. -/
theorem itemQty_of_lookup_int (item : Doc) (q : ℤ)
    (h : item.lookup "quantity" = some (.int q)) : itemQty item = some q := by
  simp [itemQty, dget, h, pyInt]

/-- The item loop, closed form: it extends the accumulator with the accepted
normalized items in order, and folds the subtotal step over the raw items. -/
theorem orderLoopAux_eq (l : List Doc) (acc : List Doc) (sub : ℚ) :
    orderLoopAux l acc sub = (acc ++ acceptedItems l, l.foldl stepSub sub) := by
  induction l generalizing acc sub with
  | nil => simp [orderLoopAux, acceptedItems]
  | cons hd tl ih =>
    cases hpi : processItem hd with
    | none =>
      simp [orderLoopAux, hpi, ih, acceptedItems, stepSub, List.filterMap_cons]
    | some x =>
      obtain ⟨q, p, t, pid⟩ := x
      simp [orderLoopAux, hpi, ih, acceptedItems, stepSub, List.filterMap_cons]

/-- The item loop from its initial accumulators. -/
theorem orderLoop_eq (l : List Doc) :
    orderLoop l = (acceptedItems l, l.foldl stepSub 0) := by
  simp [orderLoop, orderLoopAux_eq]

/-- When every raw item is accepted with its parsed quantity and price, the
subtotal fold is the plain binary64 sum of `quantity * price`. -/
theorem foldl_stepSub_of_valid (l : List Doc)
    (hv : ∀ item ∈ l, ∃ t pid, processItem item = some (qtyOf item, priceOf item, t, pid)) :
    ∀ sub : ℚ, l.foldl stepSub sub =
      l.foldl (fun s it => fadd s (fmul (fp64 ((qtyOf it : ℤ) : ℚ)) (priceOf it))) sub := by
  induction l with
  | nil => intro _; rfl
  | cons hd tl ih =>
    intro sub
    obtain ⟨t, pid, hhd⟩ := hv hd (List.mem_cons_self hd tl)
    simp only [List.foldl_cons, stepSub, hhd]
    exact ih (fun it hit => hv it (List.mem_cons_of_mem hd hit)) _

/-- The successful branch of `create_order` in closed form. -/
theorem create_order_success_eq (st : Store) (payload : CreateOrderRequest)
    (hIE : payload.items.isEmpty = false)
    (hlen : (orderLoop payload.items).1.length ≠ 0) :
    create_order (some st) payload =
      (.ok st.nextId, some { st with
        orders := st.orders ++
          [⟨(orderLoop payload.items).1, pyRound2 (orderLoop payload.items).2,
            payload.buyer_email, payload.buyer_username, payload.note⟩],
        nextId := st.nextId + 1 }) := by
  simp [create_order, hIE, hlen, insertOrder]

/-! ## The claims -/

/-- C4: for every order request whose items list is empty, `create_order`
fails with HTTP 400 and detail "No items in order" (independently of any
per-item data), and the store is unchanged — no order is persisted. -/
theorem create_order_empty_items (st : Store) (payload : CreateOrderRequest)
    (h : payload.items = []) :
    create_order (some st) payload = (.httpError 400 "No items in order", some st) := by
  simp [create_order, h]

/-- Witness for C4 at the empty request against an empty store. -/
theorem create_order_empty_items_witness :
    (⟨[], Option.none, Option.none, Option.none⟩ : CreateOrderRequest).items = [] ∧
    create_order (some ⟨[], [], 0⟩) ⟨[], Option.none, Option.none, Option.none⟩ =
      (.httpError 400 "No items in order", some ⟨[], [], 0⟩) :=
  ⟨rfl, create_order_empty_items _ _ rfl⟩

/-- C3: for every order request with a non-empty items list in which every
item is rejected by per-item validation, `create_order` fails with HTTP 400
and detail "Invalid items", a message distinct from the empty-list error, and
the store is unchanged — no order is persisted. -/
theorem create_order_all_rejected (st : Store) (payload : CreateOrderRequest)
    (hne : payload.items ≠ [])
    (hrej : ∀ item ∈ payload.items, processItem item = Option.none) :
    create_order (some st) payload = (.httpError 400 "Invalid items", some st) ∧
      "Invalid items" ≠ "No items in order" := by
  have hIE : payload.items.isEmpty = false := by
    cases hI : payload.items with
    | nil => exact absurd hI hne
    | cons a l => rfl
  have hacc : acceptedItems payload.items = [] := by
    simp only [acceptedItems, List.filterMap_eq_nil_iff]
    intro a ha
    simp [hrej a ha]
  refine ⟨?_, by decide⟩
  simp [create_order, hIE, orderLoop_eq, hacc]

set_option maxRecDepth 100000 in
unseal Rat.add Rat.mul Rat.inv Rat.sub in
/-- Witness for C3 at the spec's own example: a single item with quantity -1
and price 5, all items rejected. -/
theorem create_order_all_rejected_witness :
    create_order (some ⟨[], [], 0⟩)
        ⟨[[("quantity", .int (-1)), ("price", .int 5)]],
          Option.none, Option.none, Option.none⟩ =
      (.httpError 400 "Invalid items", some ⟨[], [], 0⟩) ∧
      "Invalid items" ≠ "No items in order" :=
  create_order_all_rejected _ _ (by decide)
    (by intro item h; simp only [List.mem_singleton] at h; subst h; decide)

/-- C8: whenever `create_order` returns an error — the 500 for a missing
store or either 400 — the store is returned exactly as it was: no order
document is written. -/
theorem create_order_error_no_write (db : Option Store) (payload : CreateOrderRequest)
    (code : ℕ) (msg : String)
    (h : (create_order db payload).1 = .httpError code msg) :
    (create_order db payload).2 = db := by
  cases db with
  | none => rfl
  | some st =>
    by_cases hIE : payload.items.isEmpty
    · simp [create_order, hIE]
    · by_cases hL : (orderLoop payload.items).1.length = 0
      · simp [create_order, hIE, hL]
      · exfalso
        simp [create_order, hIE, hL] at h

/-- Witness for C8 at the missing-store error. -/
theorem create_order_error_no_write_witness :
    (create_order Option.none ⟨[], Option.none, Option.none, Option.none⟩).1 =
      .httpError 500 "Database not configured" ∧
    (create_order Option.none ⟨[], Option.none, Option.none, Option.none⟩).2 = Option.none :=
  ⟨rfl, create_order_error_no_write _ _ 500 "Database not configured" rfl⟩

/-- C6: against a non-empty product collection, `get_products` inserts
nothing — the store comes back exactly as it was (so a second call after
seeding does not duplicate the seeded products). -/
theorem get_products_no_reseed (st : Store) (h : st.products ≠ []) :
    get_products (some st) = (.ok (st.products.map normalizeProduct), some st) := by
  have hl : st.products.length ≠ 0 := by
    simpa [List.length_eq_zero] using h
  simp [get_products, hl]

/-- Witness for C6 on a one-product store. -/
theorem get_products_no_reseed_witness :
    ([[("sku", .str "X")]] : List Doc) ≠ [] ∧
    get_products (some ⟨[[("sku", .str "X")]], [], 7⟩) =
      (.ok (([[("sku", .str "X")]] : List Doc).map normalizeProduct),
        some ⟨[[("sku", .str "X")]], [], 7⟩) :=
  ⟨by decide, get_products_no_reseed _ (by decide)⟩

/-- C2: a raw item whose quantity is unparsable, or parses to `≤ 0` (zero or
negative), or whose price is absent, unparsable, or negative, is rejected by
per-item validation, and inserting it anywhere in an item list leaves the
loop's accepted items and subtotal exactly as without it — it contributes
nothing and raises no error by itself. -/
theorem invalid_item_excluded (bad : Doc)
    (hbad : itemQty bad = Option.none ∨ (∃ q, itemQty bad = some q ∧ q ≤ 0) ∨
        itemPrice bad = Option.none ∨ (∃ p, itemPrice bad = some p ∧ p < 0)) :
    processItem bad = Option.none ∧
      ∀ pre post : List Doc, orderLoop (pre ++ bad :: post) = orderLoop (pre ++ post) := by
  have hnone : processItem bad = Option.none := by
    cases hres : processItem bad with
    | none => rfl
    | some x =>
      obtain ⟨q, p, t, pid⟩ := x
      rw [processItem_some_iff] at hres
      obtain ⟨hq, hp, hq0, hp0, -, -⟩ := hres
      rcases hbad with hql | ⟨q', hq', hq'0⟩ | hpl | ⟨p', hp', hp'0⟩
      · rw [hql] at hq; exact absurd hq (by simp)
      · rw [hq'] at hq; injection hq with hqq; omega
      · rw [hpl] at hp; exact absurd hp (by simp)
      · rw [hp'] at hp; injection hp with hpp; subst hpp; linarith
  refine ⟨hnone, fun pre post => ?_⟩
  simp [orderLoop_eq, acceptedItems, List.filterMap_append, List.foldl_append,
    List.filterMap_cons, hnone, stepSub]

set_option maxRecDepth 100000 in
unseal Rat.add Rat.mul Rat.inv Rat.sub in
/-- Witness for C2: a quantity-zero item after a valid item. -/
theorem invalid_item_excluded_witness :
    itemQty [("quantity", .int 0), ("price", .int 5)] = some 0 ∧
    processItem [("quantity", .int 0), ("price", .int 5)] = Option.none ∧
    orderLoop (([[("quantity", .int 1), ("price", .int 3)]] : List Doc) ++
        ([("quantity", .int 0), ("price", .int 5)] : Doc) :: ([] : List Doc)) =
      orderLoop (([[("quantity", .int 1), ("price", .int 3)]] : List Doc) ++ ([] : List Doc)) := by
  have h := invalid_item_excluded [("quantity", .int 0), ("price", .int 5)]
    (Or.inr (Or.inl ⟨0, by decide, by decide⟩))
  exact ⟨by decide, h.1, h.2 _ _⟩

set_option maxRecDepth 1000000 in
unseal Rat.add Rat.mul Rat.inv Rat.sub in
/-- C7, counterexample: the claim reads "the stored product_id is the item's
product_id coerced to a string, or the empty string if product_id is absent".
For the item `{quantity: 1, price: 5, product_id: 0}` the product_id is
present, so the claim demands `str(0) = "0"`; the code's
`str(item.get("product_id") or "")` stores `""` because `0` is falsy.  The
persisted order below stores product_id `""`, yet `pyStr` of the raw value is
`"0"`. -/
theorem create_order_falsy_product_id_cex :
    (create_order (some ⟨[], [], 0⟩)
        ⟨[[("quantity", .int 1), ("price", .int 5), ("product_id", .int 0)]],
          Option.none, Option.none, Option.none⟩).2 =
      some ⟨[], [⟨[[("product_id", .str ""), ("quantity", .int 1), ("price", .float 5),
        ("title", .str "Item")]], 5, Option.none, Option.none, Option.none⟩], 1⟩ ∧
      pyStr (.int 0) = "0" ∧ ("0" : String) ≠ "" := by
  refine ⟨by decide, by decide, by decide⟩

/-- C7, amended: for every accepted raw item, an absent quantity is stored as
1; an absent-or-empty title is stored as the literal "Item"; and the stored
product_id is the raw product_id coerced to a string when that value is
truthy, and the empty string when product_id is absent or falsy (`None`,
`False`, `0`, `0.0`, `""`). -/
theorem create_order_item_defaults (item : Doc) (q : ℤ) (p : ℚ) (t : PyValue) (pid : String)
    (h : processItem item = some (q, p, t, pid)) :
    (item.lookup "quantity" = Option.none → q = 1) ∧
    ((item.lookup "title" = Option.none ∨ item.lookup "title" = some (.str "")) →
      t = .str "Item") ∧
    (item.lookup "product_id" = Option.none → pid = "") ∧
    (∀ v, item.lookup "product_id" = some v →
      (v.truthy = true → pid = pyStr v) ∧ (v.truthy = false → pid = "")) := by
  rw [processItem_some_iff] at h
  obtain ⟨hq, -, -, -, ht, hpid⟩ := h
  refine ⟨?_, ?_, ?_, ?_⟩
  · intro habs
    simp only [itemQty, dget, habs, pyInt, Option.some.injEq] at hq
    omega
  · rintro (habs | habs) <;>
      simp [ht, dgetN, dget, habs, pyOr, PyValue.truthy]
  · intro habs
    simp [hpid, dgetN, dget, habs, pyOr, PyValue.truthy, pyStr]
  · intro v hv
    constructor
    · intro htr
      simp [hpid, dgetN, dget, hv, pyOr, htr]
    · intro hfa
      simp [hpid, dgetN, dget, hv, pyOr, hfa, pyStr]

set_option maxRecDepth 100000 in
unseal Rat.add Rat.mul Rat.inv Rat.sub in
/-- Witness for the amended C7 at an item with only a price: quantity
defaults to 1, title to "Item", product_id to "". -/
theorem create_order_item_defaults_witness :
    processItem [("price", .int 5)] = some (1, 5, .str "Item", "") ∧
    ((([("price", .int 5)] : Doc).lookup "quantity" = Option.none → (1 : ℤ) = 1) ∧
     ((([("price", .int 5)] : Doc).lookup "title" = Option.none ∨
        ([("price", .int 5)] : Doc).lookup "title" = some (.str "")) →
       (.str "Item" : PyValue) = .str "Item") ∧
     (([("price", .int 5)] : Doc).lookup "product_id" = Option.none → ("" : String) = "") ∧
     (∀ v, ([("price", .int 5)] : Doc).lookup "product_id" = some v →
       (v.truthy = true → ("" : String) = pyStr v) ∧
       (v.truthy = false → ("" : String) = ""))) :=
  ⟨by decide, create_order_item_defaults _ 1 5 (.str "Item") "" (by decide)⟩

/-- C10: a raw item whose quantity is a fractional float is not dropped as a
parse failure — `int()` truncates toward zero.  The parsed quantity is the
truncation; a quantity strictly between 0 and 1 truncates to 0 and the item
then falls to the `qty <= 0` check whatever its price; and with a parsable
nonnegative price and quantity ≥ 1 the item is accepted with the truncated
quantity (e.g. 2.9 is accepted as 2). -/
theorem fractional_quantity_truncates (item : Doc) (q : ℚ)
    (hq : item.lookup "quantity" = some (.float q)) :
    itemQty item = some (pytrunc q) ∧
    (0 < q → q < 1 → processItem item = Option.none) ∧
    (∀ p : ℚ, itemPrice item = some p → 0 ≤ p → 1 ≤ q →
      processItem item = some (pytrunc q, p,
        pyOr (dgetN item "title") (.str "Item"),
        pyStr (pyOr (dgetN item "product_id") (.str "")))) := by
  have hqty : itemQty item = some (pytrunc q) := by
    simp [itemQty, dget, hq, pyInt]
  refine ⟨hqty, ?_, ?_⟩
  · intro h0 h1
    have htr : pytrunc q = 0 := by
      rw [pytrunc, if_neg (by linarith)]
      exact Int.floor_eq_zero_iff.mpr (Set.mem_Ico.mpr ⟨le_of_lt h0, h1⟩)
    cases hres : processItem item with
    | none => rfl
    | some x =>
      obtain ⟨q', p', t, pid⟩ := x
      rw [processItem_some_iff] at hres
      obtain ⟨hq', -, hq'0, -, -, -⟩ := hres
      rw [hqty] at hq'
      injection hq' with he
      omega
  · intro p hp hp0 h1q
    refine processItem_of_valid item _ p hqty ?_ hp hp0
    rw [pytrunc, if_neg (by linarith)]
    have h1f : (1 : ℤ) ≤ ⌊q⌋ := by
      rw [Int.le_floor]
      exact_mod_cast h1q
    omega

set_option maxRecDepth 100000 in
unseal Rat.add Rat.mul Rat.inv Rat.sub in
/-- Witness for C10: quantity 2.9 with price 5 is accepted as quantity 2;
quantity 0.5 truncates to 0 and the item is dropped. -/
theorem fractional_quantity_truncates_witness :
    ([("quantity", .float (29/10)), ("price", .int 5)] : Doc).lookup "quantity" =
      some (.float (29/10)) ∧
    itemQty [("quantity", .float (29/10)), ("price", .int 5)] = some (pytrunc (29/10)) ∧
    pytrunc (29/10) = 2 ∧
    processItem [("quantity", .float (29/10)), ("price", .int 5)] =
      some (pytrunc (29/10), 5,
        pyOr (dgetN [("quantity", .float (29/10)), ("price", .int 5)] "title") (.str "Item"),
        pyStr (pyOr (dgetN [("quantity", .float (29/10)), ("price", .int 5)] "product_id")
          (.str ""))) ∧
    processItem [("quantity", .float (1/2))] = Option.none := by
  have h1 := fractional_quantity_truncates
    [("quantity", .float (29/10)), ("price", .int 5)] (29/10) (by decide)
  have h2 := fractional_quantity_truncates [("quantity", .float (1/2))] (1/2) (by decide)
  refine ⟨by decide, h1.1, by decide, ?_, ?_⟩
  · exact h1.2.2 5 (by decide) (by decide) (by norm_num)
  · exact h2.2.1 (by norm_num) (by norm_num)

/-- C9: every successful `create_order` persists exactly the accepted raw
items, normalized, in their original input order — the `filterMap` of
per-item validation over the input — and each stored item carries exactly
the four fields `product_id`, `quantity`, `price`, `title`; all other fields
of the raw items are discarded. -/
theorem create_order_persists_accepted (st : Store) (payload : CreateOrderRequest)
    (orderId : ℕ) (st2 : Store)
    (h : create_order (some st) payload = (.ok orderId, some st2)) :
    ∃ rec, st2.orders = st.orders ++ [rec] ∧
      rec.items = payload.items.filterMap (fun item =>
        (processItem item).map (fun x => mkLineItem x.1 x.2.1 x.2.2.1 x.2.2.2)) ∧
      ∀ d ∈ rec.items, d.map Prod.fst = ["product_id", "quantity", "price", "title"] := by
  by_cases hIE : payload.items.isEmpty
  · simp [create_order, hIE] at h
  · have hIE2 : payload.items.isEmpty = false := by
      revert hIE; cases payload.items.isEmpty <;> simp
    by_cases hL : (orderLoop payload.items).1.length = 0
    · simp [create_order, hIE2, hL] at h
    · rw [create_order_success_eq st payload hIE2 hL] at h
      have h2 : st2 = { st with
          orders := st.orders ++
            [⟨(orderLoop payload.items).1, pyRound2 (orderLoop payload.items).2,
              payload.buyer_email, payload.buyer_username, payload.note⟩],
          nextId := st.nextId + 1 } :=
        (Option.some.inj (congrArg Prod.snd h)).symm
      subst h2
      refine ⟨⟨(orderLoop payload.items).1, pyRound2 (orderLoop payload.items).2,
        payload.buyer_email, payload.buyer_username, payload.note⟩, rfl, ?_, ?_⟩
      · show (orderLoop payload.items).1 = _
        rw [orderLoop_eq]
        rfl
      · intro d hd
        have hd2 : d ∈ (orderLoop payload.items).1 := hd
        rw [orderLoop_eq] at hd2
        simp only [acceptedItems, List.mem_filterMap] at hd2
        obtain ⟨item, -, hmap⟩ := hd2
        simp only [Option.map_eq_some'] at hmap
        obtain ⟨x, -, hx⟩ := hmap
        subst hx
        simp [mkLineItem]

set_option maxRecDepth 1000000 in
unseal Rat.add Rat.mul Rat.inv Rat.sub in
/-- Witness for C9 at a one-item request carrying an extra raw field that is
discarded in the stored item. -/
theorem create_order_persists_accepted_witness :
    create_order (some ⟨[], [], 0⟩)
        ⟨[[("quantity", .int 2), ("price", .int 3), ("gift_note", .str "hi")]],
          Option.none, Option.none, Option.none⟩ =
      (.ok 0, some ⟨[], [⟨[[("product_id", .str ""), ("quantity", .int 2),
        ("price", .float 3), ("title", .str "Item")]], 6,
        Option.none, Option.none, Option.none⟩], 1⟩) ∧
    (∃ rec, (⟨[], [⟨[[("product_id", .str ""), ("quantity", .int 2),
        ("price", .float 3), ("title", .str "Item")]], 6,
        Option.none, Option.none, Option.none⟩], 1⟩ : Store).orders =
        ([] : List OrderRec) ++ [rec] ∧
      rec.items = ([[("quantity", .int 2), ("price", .int 3),
        ("gift_note", .str "hi")]] : List Doc).filterMap (fun item =>
          (processItem item).map (fun x => mkLineItem x.1 x.2.1 x.2.2.1 x.2.2.2)) ∧
      ∀ d ∈ rec.items, d.map Prod.fst = ["product_id", "quantity", "price", "title"]) :=
  ⟨by decide,
   create_order_persists_accepted ⟨[], [], 0⟩
     ⟨[[("quantity", .int 2), ("price", .int 3), ("gift_note", .str "hi")]],
       Option.none, Option.none, Option.none⟩ 0
     ⟨[], [⟨[[("product_id", .str ""), ("quantity", .int 2),
       ("price", .float 3), ("title", .str "Item")]], 6,
       Option.none, Option.none, Option.none⟩], 1⟩ (by decide)⟩

/-- C5: against an empty product collection, `get_products` inserts exactly
the four fixed default products — skus RANK_VIP, RANK_MVP, RANK_LEGEND,
KEYS_GALAXY_10, in that order — touching nothing else, and returns all
products with the internal `_id` field removed and replaced by a
string-valued public `id` field. -/
theorem get_products_seeds_on_empty (st : Store) (h : st.products = []) :
    ∃ st1, get_products (some st) = (.ok (st1.products.map normalizeProduct), some st1) ∧
      st1.products =
        [("_id", .oid st.nextId) :: productVIP,
         ("_id", .oid (st.nextId + 1)) :: productMVP,
         ("_id", .oid (st.nextId + 2)) :: productLegend,
         ("_id", .oid (st.nextId + 3)) :: productKeys] ∧
      st1.orders = st.orders ∧
      st1.products.map (fun d => d.lookup "sku") =
        [some (.str "RANK_VIP"), some (.str "RANK_MVP"),
         some (.str "RANK_LEGEND"), some (.str "KEYS_GALAXY_10")] ∧
      (∀ d ∈ st1.products.map normalizeProduct,
        d.lookup "_id" = Option.none ∧ ∃ s, d.lookup "id" = some (.str s)) := by
  have hprod : (seedProducts st).products =
      [("_id", .oid st.nextId) :: productVIP,
       ("_id", .oid (st.nextId + 1)) :: productMVP,
       ("_id", .oid (st.nextId + 2)) :: productLegend,
       ("_id", .oid (st.nextId + 3)) :: productKeys] := by
    simp [seedProducts, DEFAULT_PRODUCTS, insertProduct, h]
  have hord : (seedProducts st).orders = st.orders := by
    simp [seedProducts, DEFAULT_PRODUCTS, insertProduct]
  refine ⟨seedProducts st, ?_, hprod, hord, ?_, ?_⟩
  · simp [get_products, h]
  · rw [hprod]; rfl
  · rw [hprod]
    intro d hd
    simp only [List.map_cons, List.map_nil, List.mem_cons, List.not_mem_nil,
      or_false] at hd
    rcases hd with rfl | rfl | rfl | rfl
    · exact ⟨rfl, pyStr (.oid st.nextId), rfl⟩
    · exact ⟨rfl, pyStr (.oid (st.nextId + 1)), rfl⟩
    · exact ⟨rfl, pyStr (.oid (st.nextId + 2)), rfl⟩
    · exact ⟨rfl, pyStr (.oid (st.nextId + 3)), rfl⟩

/-- Witness for C5 on the empty store. -/
theorem get_products_seeds_on_empty_witness :
    (⟨[], [], 0⟩ : Store).products = [] ∧
    ∃ st1, get_products (some ⟨[], [], 0⟩) =
        (.ok (st1.products.map normalizeProduct), some st1) ∧
      st1.products =
        [("_id", .oid 0) :: productVIP, ("_id", .oid 1) :: productMVP,
         ("_id", .oid 2) :: productLegend, ("_id", .oid 3) :: productKeys] ∧
      st1.orders = (⟨[], [], 0⟩ : Store).orders ∧
      st1.products.map (fun d => d.lookup "sku") =
        [some (.str "RANK_VIP"), some (.str "RANK_MVP"),
         some (.str "RANK_LEGEND"), some (.str "KEYS_GALAXY_10")] ∧
      (∀ d ∈ st1.products.map normalizeProduct,
        d.lookup "_id" = Option.none ∧ ∃ s, d.lookup "id" = some (.str s)) :=
  ⟨rfl, get_products_seeds_on_empty _ rfl⟩

/-- C1: for every order request whose items list is non-empty and in which
every item carries an integer quantity > 0 and a parsable price ≥ 0,
`create_order` succeeds, and the persisted order's subtotal is
`round(Σ quantity*price, 2)` where the sum is the left-to-right binary64
accumulation over the items and the rounding is Python's built-in `round`
(round-half-to-even on the value). -/
theorem create_order_valid_subtotal (st : Store) (payload : CreateOrderRequest)
    (hne : payload.items ≠ [])
    (hvalid : ∀ item ∈ payload.items,
      (∃ q : ℤ, item.lookup "quantity" = some (.int q) ∧ 0 < q) ∧
      (∃ p : ℚ, itemPrice item = some p ∧ 0 ≤ p)) :
    (create_order (some st) payload).1 = .ok st.nextId ∧
    ∃ st2 rec, (create_order (some st) payload).2 = some st2 ∧
      st2.orders = st.orders ++ [rec] ∧
      rec.subtotal = pyRound2 (fpSubtotal payload.items) := by
  have hv : ∀ item ∈ payload.items, ∃ t pid,
      processItem item = some (qtyOf item, priceOf item, t, pid) := by
    intro item hit
    obtain ⟨⟨q, hlq, hq0⟩, ⟨p, hp, hp0⟩⟩ := hvalid item hit
    have hq : itemQty item = some q := itemQty_of_lookup_int item q hlq
    have hq2 : qtyOf item = q := by simp [qtyOf, hq]
    have hp2 : priceOf item = p := by simp [priceOf, hp]
    exact ⟨_, _, processItem_of_valid item (qtyOf item) (priceOf item)
      (by rw [hq2]; exact hq) (by rw [hq2]; exact hq0)
      (by rw [hp2]; exact hp) (by rw [hp2]; exact hp0)⟩
  have hIE : payload.items.isEmpty = false := by
    cases hI : payload.items with
    | nil => exact absurd hI hne
    | cons a l => rfl
  have hlen : (orderLoop payload.items).1.length ≠ 0 := by
    obtain ⟨hd, tl, heq⟩ := List.exists_cons_of_ne_nil hne
    obtain ⟨t, pid, hhd⟩ := hv hd (by rw [heq]; exact List.mem_cons_self hd tl)
    rw [orderLoop_eq]
    simp [acceptedItems, heq, List.filterMap_cons, hhd]
  have hsub : (orderLoop payload.items).2 = fpSubtotal payload.items := by
    rw [orderLoop_eq]
    exact foldl_stepSub_of_valid payload.items hv 0
  rw [create_order_success_eq st payload hIE hlen]
  refine ⟨rfl, _, _, rfl, rfl, ?_⟩
  show pyRound2 (orderLoop payload.items).2 = pyRound2 (fpSubtotal payload.items)
  rw [hsub]

set_option maxRecDepth 1000000 in
unseal Rat.add Rat.mul Rat.inv Rat.sub in
/-- Witness for C1 at the spec's example item `{quantity: 2, price: 9.99}`
(the price being the double closest to 9.99): the order is created and the
persisted subtotal is the double 19.98. -/
theorem create_order_valid_subtotal_witness :
    (([[("quantity", .int 2), ("price", .float (fp64 (999/100)))]] : List Doc) ≠ []) ∧
    ((create_order (some ⟨[], [], 0⟩)
        ⟨[[("quantity", .int 2), ("price", .float (fp64 (999/100)))]],
          Option.none, Option.none, Option.none⟩).1 = .ok 0 ∧
      ∃ st2 rec, (create_order (some ⟨[], [], 0⟩)
          ⟨[[("quantity", .int 2), ("price", .float (fp64 (999/100)))]],
            Option.none, Option.none, Option.none⟩).2 = some st2 ∧
        st2.orders = ([] : List OrderRec) ++ [rec] ∧
        rec.subtotal = pyRound2 (fpSubtotal
          [[("quantity", .int 2), ("price", .float (fp64 (999/100)))]])) ∧
    pyRound2 (fpSubtotal [[("quantity", .int 2), ("price", .float (fp64 (999/100)))]]) =
      fp64 (1998/100) := by
  refine ⟨by decide, create_order_valid_subtotal _ _ (by decide) ?_, by decide⟩
  intro item hit
  simp only [List.mem_singleton] at hit
  subst hit
  exact ⟨⟨2, by decide, by decide⟩, ⟨fp64 (999/100), by decide, by decide⟩⟩

end VictusStore
